import Mathlib

/-!
Shallow embedding of the autoimpute predictive-imputation pipeline:
`PredictiveImputer` (src/autoimpute/imputations/dataframe/predictive_imputer.py)
and `LRDImputer` (src/autoimpute/imputations/series/lrd.py).

External libraries (sklearn's LinearRegression / check_is_fitted, pymc3
sampling, numpy randomness) enter as oracle parameters.  Repository modules
that are not among the given sources (predictive_methods, the BaseImputer
helpers, utils.checks, imputations.helpers, imputations.errors,
imputations.method_names) are modelled from the spec and marked as such in
their doc comments.
-/

namespace Autoimpute

/-- A cell value of a DataFrame: numeric or categorical. -/
inductive Val
| num (q : ℚ)
| cat (s : String)
deriving DecidableEq, Repr

/-- A DataFrame cell: `none` models a missing (NaN) entry. -/
abbrev Cell := Option Val

/-- A DataFrame: named columns in order, each a list of cells by row position. -/
abbrev Frame := List (String × List Cell)

/-- `X.columns.tolist()`. -/
def frameColumns (X : Frame) : List String := X.map Prod.fst

/-- Look up the (first) column with a given name. -/
def getCol? : Frame → String → Option (List Cell)
| [], _ => none
| p :: rest, c => if p.1 = c then some p.2 else getCol? rest c

/-- Column lookup with empty default (a fit column is checked present first). -/
def getColD (X : Frame) (c : String) : List Cell := (getCol? X c).getD []

/-- The cell of column `c` at row position `i`, when both exist. -/
def cellAt (X : Frame) (c : String) (i : Nat) : Option Cell :=
  (getCol? X c).bind (fun l => l.get? i)

/-- Shape and column order of a frame: column names with their lengths. -/
def frameShape (X : Frame) : List (String × Nat) := X.map (fun p => (p.1, p.2.length))

/-- Replace the content of column `c` by `f` applied to it, keeping all names. -/
def mapCol : Frame → String → (List Cell → List Cell) → Frame
| [], _, _ => []
| p :: rest, c, f =>
  (if p.1 = c then (p.1, f p.2) else p) :: mapCol rest c f

def nullIndexesFrom : Nat → List Cell → List Nat
| _, [] => []
| i, cell :: rest =>
  if cell.isNone then i :: nullIndexesFrom (i + 1) rest
  else nullIndexesFrom (i + 1) rest

/-- `X[col][X[col].isnull()].index`: null row positions, in order. -/
def nullIndexes (l : List Cell) : List Nat := nullIndexesFrom 0 l

def fillFrom (g : Nat → Val) (ixs : List Nat) : Nat → List Cell → List Cell
| _, [] => []
| i, cell :: rest =>
  (if i ∈ ixs then some (g i) else cell) :: fillFrom g ixs (i + 1) rest

/-- `X.loc[imp_ix, col] = values`: write value `g i` at each position `i ∈ ixs`
of column `c`. -/
def spliceCol (X : Frame) (c : String) (g : Nat → Val) (ixs : List Nat) : Frame :=
  mapCol X c (fillFrom g ixs 0)

/-- Modelled from the spec: the `check_nan_columns` decorator
(autoimpute.utils.checks, not under src/) rejects a frame in which some
column has no observed values (`AllColumnsNull`: "a column has no observed
values to fit on").  It wraps both `fit` and `transform` in the source. -/
def hasAllNullCol (X : Frame) : Bool :=
  X.any (fun p => p.2.all (fun cell => cell.isNone))

namespace methods

/-- Modelled from the spec: the `method_names` module (not under src/); the
identifier strings follow the spec's strategy enumeration and the test
assertions. -/
def DEFAULT : String := "default"

/-- Modelled from the spec: `method_names.LS`. -/
def LS : String := "least squares"

/-- Modelled from the spec: `method_names.BINARY_LOGISTIC`. -/
def BINARY_LOGISTIC : String := "binary logistic"

/-- Modelled from the spec: `method_names.MULTI_LOGISTIC`. -/
def MULTI_LOGISTIC : String := "multinomial logistic"

/-- Modelled from the spec: `method_names.STOCHASTIC`. -/
def STOCHASTIC : String := "stochastic"

/-- Modelled from the spec: `method_names.BAYESIAN_LS`. -/
def BAYESIAN_LS : String := "bayesian least squares"

/-- Modelled from the spec: `method_names.BAYESIAN_BINARY_LOGISTIC`. -/
def BAYESIAN_BINARY_LOGISTIC : String := "bayesian binary logistic"

/-- Modelled from the spec: `method_names.PMM`. -/
def PMM : String := "pmm"

/-- Modelled from the spec: `method_names.LRD`. -/
def LRD : String := "lrd"

/-- Modelled from the spec: `method_names.NONE`. -/
def NONE : String := "none"

end methods

/-- Error kinds of the pipeline (spec section 7).  Python raises them as
ValueError / TypeError / sklearn NotFittedError; the kind is what matters. -/
inductive ImpError
| UnknownStrategy
| StrategyMismatch
| InvalidClassCount
| NotFittedError
| SchemaMismatch
| InvalidFillValue
| AllColumnsNull
| MalformedConfig
deriving DecidableEq, Repr

/-- A strategy argument: a single identifier broadcast to all columns, or a
per-column mapping (`predictive_imputer.py` also accepts an iterable, which
normalizes to the mapping form). -/
inductive StrategySpec
| str (s : String)
| dict (m : List (String × String))
deriving DecidableEq, Repr

/-- All strategy identifiers mentioned by a `StrategySpec` lie in `allowed`. -/
def stratValuesAllowed (allowed : List String) : StrategySpec → Bool
| .str s => allowed.contains s
| .dict m => m.all (fun p => allowed.contains p.2)

/-- Modelled from the spec: `BaseImputer.check_strategy_allowed` (not under
src/): fails with `UnknownStrategy` when an identifier is not among the
allowed set, otherwise returns the strategy argument. -/
def check_strategy_allowed (allowed : List String) (s : StrategySpec) :
    Except ImpError StrategySpec :=
  if stratValuesAllowed allowed s then .ok s else .error .UnknownStrategy

/-- The keys of the `PredictiveImputer.strategies` class dict
(predictive_imputer.py lines 60-69): exactly eight identifiers. -/
def strategiesKeys : List String :=
  [methods.DEFAULT, methods.LS, methods.BINARY_LOGISTIC, methods.MULTI_LOGISTIC,
   methods.STOCHASTIC, methods.BAYESIAN_LS, methods.BAYESIAN_BINARY_LOGISTIC,
   methods.PMM]

/-- The resolved strategies for which `transform`'s if-chain dispatches an
impute routine that writes into the frame (predictive_imputer.py 290-310). -/
def dispatchWrites (strat : String) : Bool :=
  decide (strat ∈ [methods.LS, methods.BINARY_LOGISTIC, methods.MULTI_LOGISTIC,
    methods.STOCHASTIC, methods.BAYESIAN_LS, methods.BAYESIAN_BINARY_LOGISTIC,
    methods.PMM])

/-- The resolved strategies whose impute routine returns a posterior trace
(predictive_imputer.py 296-310). -/
def tracedStrategy (strat : String) : Bool :=
  decide (strat ∈ [methods.BAYESIAN_LS, methods.BAYESIAN_BINARY_LOGISTIC,
    methods.PMM])

/-- Abstract fitted parameters of a per-column model (the concrete content is
produced by the predictive_methods fit functions, abstracted as an oracle). -/
abbrev FitParam := List ℚ

/-- One entry of `self.statistics_`: `{"param": fit_param, "strategy": fit_name}`. -/
structure FitStat where
  param : FitParam
  strategy : String
deriving DecidableEq, Repr

/-- The `PredictiveImputer` instance state: constructor arguments plus the
attributes written by `fit` (`_strats`, `_preds`, `statistics_`) and by
`transform` (`imputed_`, `traces_`). -/
structure PredictiveImputer where
  strategy : StrategySpec
  predictors : String
  fill_value : Option String
  copy : Bool
  statistics_ : Option (List (String × FitStat))
  strats : Option (List (String × String))
  preds : Option (List (String × List String))
  imputed_ : List (String × List Nat)
  traces_ : List String
deriving DecidableEq, Repr

/-- `PredictiveImputer.__init__`: stores the arguments; the `strategy` setter
validates identifiers against `strategies.keys()` and raises
`UnknownStrategy` otherwise (predictive_imputer.py 71-138). -/
def mkPredictiveImputer (strategy : StrategySpec) (predictors : String)
    (fill_value : Option String) (copy : Bool) : Except ImpError PredictiveImputer :=
  (check_strategy_allowed strategiesKeys strategy).map
    (fun s => ⟨s, predictors, fill_value, copy, none, none, none, [], []⟩)

/-- Modelled from the spec: `BaseImputer.check_strategy_fit` (not under src/):
normalizes the strategy argument into one per-column mapping over the fit
frame's columns; a mapping key that is not a column is malformed input. -/
def check_strategy_fit (s : StrategySpec) (cols : List String) :
    Except ImpError (List (String × String)) :=
  match s with
  | .str v => .ok (cols.map (fun c => (c, v)))
  | .dict m =>
    if m.all (fun p => cols.contains p.1) then .ok m else .error .MalformedConfig

/-- Modelled from the spec: `BaseImputer.check_predictors_fit` (not under
src/), default `"all"` case: each column is predicted from all other columns,
never from itself. -/
def check_predictors_fit (cols : List String) : List (String × List String) :=
  cols.map (fun c => (c, cols.filter (fun d => !(d == c))))

/-- A fit function from the strategy registry (the predictive_methods module,
abstracted): given the registry key, the response column name and the frame,
either fails (e.g. `StrategyMismatch`, `InvalidClassCount`) or returns the
fitted parameters and the resolved strategy name. -/
abbrev FitOracle := String → String → Frame → Except ImpError (FitParam × String)

/-- An impute routine from the predictive_methods module, abstracted: given
the resolved strategy, the column, the frame prepared at transform time and a
null row position, the value to splice in at that position. -/
abbrev ImpOracle := String → String → Frame → Nat → Val

/-- The per-column loop body of `PredictiveImputer.fit` (lines 209-221):
dispatch to the strategy's fit function, collect `statistics_` entries. -/
def fitLoop (fitF : FitOracle) (X : Frame) :
    List (String × String) → Except ImpError (List (String × FitStat))
| [] => .ok []
| (c, fn) :: rest =>
  match fitF fn c X with
  | .error e => .error e
  | .ok pr =>
    match fitLoop fitF X rest with
    | .error e => .error e
    | .ok tail => .ok ((c, ⟨pr.1, pr.2⟩) :: tail)

/-- `PredictiveImputer.fit` (lines 183-222): the check_nan_columns decorator,
then `_fit_strategy_validator` (strategy and predictor resolution; the
categorical/numeric prep and scaling are internal to the oracle), then the
per-column fit loop storing `statistics_`. -/
def PredictiveImputer.fit (imp : PredictiveImputer) (fitF : FitOracle) (X : Frame) :
    Except ImpError PredictiveImputer :=
  if hasAllNullCol X then .error .AllColumnsNull
  else
    match check_strategy_fit imp.strategy (frameColumns X) with
    | .error e => .error e
    | .ok strl =>
      match fitLoop fitF X strl with
      | .error e => .error e
      | .ok stats =>
        .ok { imp with
                strats := some strl,
                preds := some (check_predictors_fit (frameColumns X)),
                statistics_ := some stats }

/-- The mutable pieces threaded through `transform`'s per-column loop:
the frame being imputed, `self.imputed_`, `self.traces_` (column names that
received a trace), and the impute-routine dispatches performed. -/
structure TState where
  frame : Frame
  imputed : List (String × List Nat)
  traces : List String
  dispatched : List (String × String)
deriving DecidableEq, Repr

/-- One iteration of `transform`'s loop (predictive_imputer.py 255-312):
record the null positions in `imputed_`; skip when there are none; otherwise
dispatch to the strategy's impute routine, which splices the returned values
into exactly those positions (the routines are from predictive_methods, not
under src/, modelled from the spec as `spliceCol` over the oracle's values). -/
def transformStep (impF : ImpOracle) (X0 : Frame) (s : TState) (e : String × FitStat) :
    TState :=
  let ix := nullIndexes (getColD s.frame e.1)
  let strat := e.2.strategy
  let s1 : TState := { s with imputed := s.imputed ++ [(e.1, ix)] }
  if ix = [] then s1
  else if dispatchWrites strat then
    { s1 with
        frame := spliceCol s1.frame e.1 (fun i => impF strat e.1 X0 i) ix,
        traces := if tracedStrategy strat then s1.traces ++ [e.1] else s1.traces,
        dispatched := s1.dispatched ++ [(e.1, strat)] }
  else s1

/-- `PredictiveImputer.transform` (lines 225-313): the check_nan_columns
decorator, then `_transform_strategy_validator` (`check_is_fitted` on
`statistics_`, then every fit-time strategy column must appear among the
transform frame's columns), then the per-column loop.  `new_data` only
re-derives internal encodings (absorbed by the oracle); the `copy` flag only
decides aliasing, which value semantics cannot distinguish.  Returns the
imputed frame, the updated instance, and the dispatches performed. -/
def PredictiveImputer.transform (imp : PredictiveImputer) (impF : ImpOracle)
    (X : Frame) (new_data : Bool) :
    Except ImpError Frame × PredictiveImputer × List (String × String) :=
  if hasAllNullCol X then (.error .AllColumnsNull, imp, [])
  else
    match imp.statistics_ with
    | none => (.error .NotFittedError, imp, [])
    | some sts =>
      if ((imp.strats.getD []).map Prod.fst).any
          (fun c => decide (¬ c ∈ frameColumns X)) then
        (.error .SchemaMismatch, imp, [])
      else
        let s1 := List.foldl (transformStep impF X) ⟨X, [], [], []⟩ sts
        (.ok s1.frame,
         { imp with imputed_ := s1.imputed, traces_ := s1.traces },
         s1.dispatched)

/-- `PredictiveImputer.fit_transform` (lines 315-317):
`return self.fit(X).transform(X, False)`. -/
def PredictiveImputer.fit_transform (imp : PredictiveImputer) (fitF : FitOracle)
    (impF : ImpOracle) (X : Frame) :
    Except ImpError Frame × PredictiveImputer × List (String × String) :=
  match imp.fit fitF X with
  | .error e => (.error e, imp, [])
  | .ok m => m.transform impF X false

/-- A predictor matrix for a series imputer: rows of numeric covariates. -/
abbrev Mat := List (List ℚ)

/-- Dot product of a coefficient vector with a covariate row. -/
def dot (a b : List ℚ) : ℚ := ((a.zip b).map (fun p => p.1 * p.2)).sum

/-- Arithmetic mean (`np.mean`), 0 on the empty list. -/
def meanQ (l : List ℚ) : ℚ := if l.length = 0 then 0 else l.sum / (l.length : ℚ)

/-- Is this cell a categorical value?  (pandas: the series then has object
dtype, which the numeric-only check rejects.) -/
def cellIsCat : Cell → Bool
| some (Val.cat _) => true
| _ => false

/-- Insert an `(y, y_pred)` pair into a list sorted by distance of `y_pred`
to the query `x` (stable: ties keep the earlier row first). -/
def insertByDist (x : ℚ) (p : ℚ × ℚ) : List (ℚ × ℚ) → List (ℚ × ℚ)
| [] => [p]
| q :: rest =>
  if |p.2 - x| < |q.2 - x| then p :: q :: rest else q :: insertByDist x p rest

/-- Sort observed `(y, y_pred)` pairs by distance of the prediction to `x`. -/
def sortByDist (x : ℚ) (l : List (ℚ × ℚ)) : List (ℚ × ℚ) :=
  l.foldr (insertByDist x) []

/-- Modelled from the spec: `autoimpute.imputations.helpers._local_residuals`
(not under src/): for a bayesian prediction `x`, find the `n` observed rows
whose least-squares predictions are closest to `x`, and aggregate the
neighbors' true values plus the residual `x - y_pred` (mean-of-neighbors or a
random pick, supplied as `agg`). -/
def localResiduals (agg : List ℚ → ℚ) (x : ℚ) (n : Nat) (obs : List (ℚ × ℚ)) : ℚ :=
  agg (((sortByDist x obs).take n).map (fun p => p.1 + (x - p.2)))

/-- The fitted state stored by `LRDImputer.fit` in `statistics_["param"]`: the
bayesian model specification (prior means and scales, after seeding from the
least-squares point estimates) and the `y_df` DataFrame of observed responses
with their least-squares predictions. -/
structure LRDStats where
  modelAm : ℚ
  modelAsd : ℚ
  modelBm : List ℚ
  modelBsd : ℚ
  modelSig : ℚ
  yObs : List (Cell × ℚ)
deriving DecidableEq, Repr

/-- `LRDImputer` instance state (lrd.py 44-87): prior parameters (`am`/`bm`
are `None` until seeded), sampling controls, fill policy, neighbor count, and
the `statistics_` attribute set by `fit`. -/
structure LRDImputer where
  am : Option ℚ
  asd : ℚ
  bm : Option (List ℚ)
  bsd : ℚ
  sig : ℚ
  sample : Nat
  tune : Nat
  init : String
  fill_value : String
  neighbors : Nat
  statistics_ : Option LRDStats
deriving DecidableEq, Repr

/-- Observable units of expensive numerical work performed by the LRD
imputer, in order of occurrence: the sklearn least-squares fit in `fit`, and
the pymc3 posterior sampling (`pm.sample`) in `impute`. -/
inductive LRDEvent
| lsFit
| mcmcSample
deriving DecidableEq, Repr

/-- sklearn's `LinearRegression().fit(X, y)`, abstracted: returns the
intercept (`.intercept_`) and coefficient vector (`.coef_`). -/
abbrev LSOracle := Mat → List Cell → ℚ × List ℚ

/-- pymc3's `pm.sample` plus the posterior draws of `impute` (the
`np.random.choice` over the alpha chain and the multivariate-normal beta
draw), abstracted: from the model specification and the sampling controls
(`sample`, `tune`, `init`), the sampled `(alpha_bayes, beta_bayes)`. -/
abbrev Sampler := LRDStats → Nat → Nat → String → ℚ × List ℚ

/-- `np.random.choice` over a list of candidate imputations, abstracted. -/
abbrev Choice := List ℚ → ℚ

/-- Modelled from the spec: `autoimpute.imputations.errors._not_num_series`
(not under src/): a numeric-only strategy applied to a series containing
categorical data fails with `StrategyMismatch`. -/
def notNumSeries (y : List Cell) : Bool := y.any cellIsCat

/-- `LRDImputer.fit` (lrd.py 89-128): numeric-only check, least-squares fit
and predictions, seeding of the `am`/`bm` prior means with the least-squares
point estimates when they are `None`, then the bayesian model specification
and `y_df` are stored in `statistics_`.  The second component records the
numerical work performed. -/
def LRDImputer.fit (imp : LRDImputer) (ls : LSOracle) (X : Mat) (y : List Cell) :
    Except ImpError LRDImputer × List LRDEvent :=
  if notNumSeries y then (.error .StrategyMismatch, [])
  else
    let fitted := ls X y
    let y_pred := X.map (fun row => fitted.1 + dot fitted.2 row)
    let y_df := y.zip y_pred
    let am := imp.am.getD fitted.1
    let bm := imp.bm.getD fitted.2
    let st : LRDStats := ⟨am, imp.asd, bm, imp.bsd, imp.sig, y_df⟩
    (.ok { imp with am := some am, bm := some bm, statistics_ := some st },
     [.lsFit])

/-- The bayesian predictions of `LRDImputer.impute`:
`y_pred_bayes = alpha_bayes + beta_bayes.dot(X.T)` after posterior sampling. -/
def lrdYPredBayes (imp : LRDImputer) (sampler : Sampler) (st : LRDStats)
    (X : Mat) : List ℚ :=
  let draw := sampler st imp.sample imp.tune imp.init
  X.map (fun row => draw.1 + dot draw.2 row)

/-- The observed `(y, y_pred)` pairs of `y_df` usable for neighbor search. -/
def observedPairs (l : List (Cell × ℚ)) : List (ℚ × ℚ) :=
  l.filterMap (fun p =>
    match p.1 with
    | some (Val.num q) => some (q, p.2)
    | _ => none)

/-- `LRDImputer.impute` (lrd.py 130-191): `check_is_fitted` on `statistics_`,
then pymc3 posterior sampling (`pm.sample`, the `mcmcSample` event), the
`(alpha, beta)` posterior draws, the bayesian predictions, and only then the
`fill_value` dispatch: mean-of-neighbors local residuals, random-pick local
residuals, or `InvalidFillValue` for anything else. -/
def LRDImputer.impute (imp : LRDImputer) (sampler : Sampler) (choice : Choice)
    (X : Mat) : Except ImpError (List ℚ) × List LRDEvent :=
  match imp.statistics_ with
  | none => (.error .NotFittedError, [])
  | some st =>
    let ypb := lrdYPredBayes imp sampler st X
    let obs := observedPairs st.yObs
    if imp.fill_value = "mean" then
      (.ok (ypb.map (fun x => localResiduals meanQ x imp.neighbors obs)),
       [.mcmcSample])
    else if imp.fill_value = "random" then
      (.ok (ypb.map (fun x => localResiduals choice x imp.neighbors obs)),
       [.mcmcSample])
    else (.error .InvalidFillValue, [.mcmcSample])

/-- The rows of `X` at the given positions (`X.loc[miss_y_ix]`). -/
def rowsAt (X : Mat) (ix : List Nat) : Mat := ix.filterMap (fun i => X.get? i)

/-- `LRDImputer.fit_impute` (lrd.py 193-205):
`self.fit(X, y).impute(X.loc[miss_y_ix])` where `miss_y_ix` are the null
positions of `y`; events of both phases are concatenated in order. -/
def LRDImputer.fit_impute (imp : LRDImputer) (ls : LSOracle) (sampler : Sampler)
    (choice : Choice) (X : Mat) (y : List Cell) :
    Except ImpError (List ℚ) × List LRDEvent :=
  let miss := nullIndexes y
  match imp.fit ls X y with
  | (.error e, ev) => (.error e, ev)
  | (.ok m, ev) =>
    let r := m.impute sampler choice (rowsAt X miss)
    (r.1, ev ++ r.2)

/-! ### Concrete instances used by the witnesses and counterexamples -/

/-- A fitted imputer: one column `A` fit with least squares. -/
def c1Imp : PredictiveImputer :=
  ⟨.str methods.LS, "all", none, true,
   some [("A", ⟨[], methods.LS⟩)], some [("A", methods.LS)],
   some [("A", [])], [], []⟩

/-- A constant impute oracle producing the value 5. -/
def c1ImpF : ImpOracle := fun _ _ _ _ => Val.num 5

def c1X : Frame := [("A", [some (Val.num 1), none])]

def c1Xout : Frame := [("A", [some (Val.num 1), some (Val.num 5)])]

def c1Imp2 : PredictiveImputer :=
  ⟨.str methods.LS, "all", none, true,
   some [("A", ⟨[], methods.LS⟩)], some [("A", methods.LS)],
   some [("A", [])], [("A", [1])], []⟩

def c2Imp : PredictiveImputer :=
  ⟨.str methods.PMM, "all", none, true, none, none, none, [], []⟩

def c2FitF : FitOracle := fun _ _ _ => .ok ([], methods.PMM)

def c2ImpF : ImpOracle := fun _ _ _ _ => Val.num 3

def c2X : Frame := [("A", [none, some (Val.num 2)])]

/-- The state of `c2Imp` after fitting on `c2X`. -/
def c2M : PredictiveImputer :=
  ⟨.str methods.PMM, "all", none, true,
   some [("A", ⟨[], methods.PMM⟩)], some [("A", methods.PMM)],
   some [("A", [])], [], []⟩

def c5Imp0 : PredictiveImputer :=
  ⟨.str methods.LS, "all", none, true, none, none, none, [], []⟩

def c5FitF : FitOracle := fun _ _ _ => .ok ([], methods.LS)

def c5ImpF : ImpOracle := fun _ _ _ _ => Val.num 0

def c5X1 : Frame := [("A", [some (Val.num 1)])]

def c5X2 : Frame := [("A", [some (Val.num 1)]), ("B", [some (Val.num 2)])]

/-- The state of `c5Imp0` after fitting on `c5X1` (columns {A}). -/
def c5Fitted : PredictiveImputer :=
  ⟨.str methods.LS, "all", none, true,
   some [("A", ⟨[], methods.LS⟩)], some [("A", methods.LS)],
   some [("A", [])], [], []⟩

def c5wX : Frame := [("C", [some (Val.num 1)])]

def c6Imp : PredictiveImputer :=
  ⟨.str methods.DEFAULT, "all", none, true, none, none, none, [], []⟩

def c6ImpF : ImpOracle := fun _ _ _ _ => Val.num 0

def c9Imp : PredictiveImputer :=
  ⟨.str methods.LS, "all", none, true,
   some [("A", ⟨[], methods.LS⟩)], some [("A", methods.LS)],
   some [("A", [])], [], []⟩

def c9ImpF : ImpOracle := fun _ _ _ _ => Val.num 9

/-- Zero missing values in the fitted column `A`; the unfitted column `B`
has a missing value. -/
def c9X : Frame := [("A", [some (Val.num 1)]), ("B", [some (Val.num 2), none])]

/-- Zero missing values in the fitted column `A`; the unfitted column `B`
has no observed value at all. -/
def c9cX : Frame := [("A", [some (Val.num 1)]), ("B", [none])]

def c4Imp : LRDImputer :=
  ⟨none, 10, none, 10, 1, 1000, 1000, "auto", "bad", 5, none⟩

def c4LS : LSOracle := fun _ _ => (0, [0])

def c4Sampler : Sampler := fun _ _ _ _ => (0, [0])

def c4Choice : Choice := fun l => l.headD 0

/-- A fitted LRD imputer with `fill_value = "mean"`. -/
def c7Imp : LRDImputer :=
  ⟨some 0, 10, some [0], 10, 1, 1000, 1000, "auto", "mean", 2,
   some ⟨0, 10, [0], 10, 1, [(some (Val.num 1), 1), (some (Val.num 2), 2)]⟩⟩

def c7Sampler : Sampler := fun _ _ _ _ => (0, [1])

def c7Choice : Choice := fun l => l.headD 0

def c8Imp : LRDImputer :=
  ⟨none, 10, none, 10, 1, 1000, 1000, "auto", "random", 5, none⟩

def c8LS : LSOracle := fun _ _ => (0, [0])

def c10Imp : LRDImputer :=
  ⟨none, 10, none, 10, 1, 1000, 1000, "auto", "random", 5, none⟩

def c10LS1 : LSOracle := fun _ _ => (3, [4])

def c10LS2 : LSOracle := fun _ _ => (7, [8])

/-- The state of `c10Imp` after `fit c10LS1 [[1]] [some (Val.num 2)]`. -/
def c10Imp1 : LRDImputer :=
  ⟨some 3, 10, some [4], 10, 1, 1000, 1000, "auto", "random", 5,
   some ⟨3, 10, [4], 10, 1, [(some (Val.num 2), 3 + dot [4] [1])]⟩⟩

/-- The state of `c10Imp1` after `fit c10LS2 [[5]] [some (Val.num 6)]`:
the prior means keep the first fit's estimates. -/
def c10Imp2 : LRDImputer :=
  ⟨some 3, 10, some [4], 10, 1, 1000, 1000, "auto", "random", 5,
   some ⟨3, 10, [4], 10, 1, [(some (Val.num 6), 7 + dot [8] [5])]⟩⟩

/-! ### Helper lemmas about the frame primitives -/

theorem mem_nullIndexesFrom :
    ∀ (l : List Cell) (k j : Nat),
      j ∈ nullIndexesFrom k l ↔ ∃ m, j = k + m ∧ l.get? m = some none
| [], k, j => by simp [nullIndexesFrom]
| cell :: rest, k, j => by
  have ih := mem_nullIndexesFrom rest (k + 1) j
  by_cases hc : cell.isNone
  · have hcell : cell = none := Option.isNone_iff_eq_none.mp hc
    subst hcell
    simp only [nullIndexesFrom, if_pos hc, List.mem_cons, ih]
    constructor
    · rintro (rfl | ⟨m, rfl, hm⟩)
      · exact ⟨0, by simp⟩
      · exact ⟨m + 1, by omega, by simpa using hm⟩
    · rintro ⟨m, rfl, hm⟩
      match m, hm with
      | 0, _ => exact Or.inl (by omega)
      | m + 1, hm => exact Or.inr ⟨m, by omega, by simpa using hm⟩
  · simp only [nullIndexesFrom, if_neg hc, ih]
    constructor
    · rintro ⟨m, rfl, hm⟩
      exact ⟨m + 1, by omega, by simpa using hm⟩
    · rintro ⟨m, rfl, hm⟩
      match m, hm with
      | 0, hm =>
        exact absurd (Option.some.inj hm) (fun h => by simp [h] at hc)
      | m + 1, hm => exact ⟨m, by omega, by simpa using hm⟩

theorem mem_nullIndexes (l : List Cell) (j : Nat) :
    j ∈ nullIndexes l ↔ l.get? j = some none := by
  unfold nullIndexes
  rw [mem_nullIndexesFrom]
  constructor
  · rintro ⟨m, rfl, hm⟩; simpa using hm
  · intro h; exact ⟨j, by omega, h⟩

theorem getElem?_fillFrom (g : Nat → Val) (ixs : List Nat) :
    ∀ (l : List Cell) (k j : Nat),
      (fillFrom g ixs k l)[j]? =
        (l[j]?).map (fun cell => if (k + j) ∈ ixs then some (g (k + j)) else cell)
| [], k, j => by simp [fillFrom]
| cell :: rest, k, 0 => by simp [fillFrom]
| cell :: rest, k, j + 1 => by
  have ih := getElem?_fillFrom g ixs rest (k + 1) j
  have hk : k + 1 + j = k + (j + 1) := by omega
  simp only [fillFrom, List.getElem?_cons_succ, ih, hk]

theorem length_fillFrom (g : Nat → Val) (ixs : List Nat) :
    ∀ (l : List Cell) (k : Nat), (fillFrom g ixs k l).length = l.length
| [], _ => rfl
| _ :: rest, k => by simp [fillFrom, length_fillFrom g ixs rest (k + 1)]

theorem getCol?_mapCol (c d : String) (f : List Cell → List Cell) :
    ∀ X : Frame,
      getCol? (mapCol X c f) d =
        if d = c then (getCol? X d).map f else getCol? X d
| [] => by by_cases h : d = c <;> simp [mapCol, getCol?, h]
| p :: rest => by
  have ih := getCol?_mapCol c d f rest
  by_cases hpc : p.1 = c
  · by_cases hpd : p.1 = d
    · have hdc : d = c := by rw [← hpd]; exact hpc
      simp [mapCol, getCol?, hpc, hpd, hdc]
    · have hcd : ¬ c = d := by rw [← hpc]; exact hpd
      have hdc : ¬ d = c := fun h => hcd h.symm
      simp [mapCol, getCol?, hpc, hpd, hcd, hdc, ih]
  · by_cases hpd : p.1 = d
    · have hdc : ¬ d = c := by rw [← hpd]; exact hpc
      simp [mapCol, getCol?, hpc, hpd, hdc]
    · simp [mapCol, getCol?, hpc, hpd, ih]

theorem frameShape_mapCol (c : String) (f : List Cell → List Cell)
    (hf : ∀ l, (f l).length = l.length) :
    ∀ X : Frame, frameShape (mapCol X c f) = frameShape X
| [] => rfl
| p :: rest => by
  have ih := frameShape_mapCol c f hf rest
  by_cases h : p.1 = c <;> simp [mapCol, frameShape, h, hf] at * <;> exact ih

theorem cellAt_spliceCol (X : Frame) (c d : String) (g : Nat → Val)
    (ixs : List Nat) (i : Nat) :
    cellAt (spliceCol X c g ixs) d i =
      if d = c then
        (cellAt X d i).map (fun cell => if i ∈ ixs then some (g i) else cell)
      else cellAt X d i := by
  unfold cellAt spliceCol
  rw [getCol?_mapCol]
  by_cases h : d = c
  · simp only [h, if_pos rfl]
    cases hg : getCol? X c with
    | none => simp
    | some l => simp [getElem?_fillFrom, Nat.zero_add]
  · simp [h]

theorem mem_nullIndexes_getColD (X : Frame) (c : String) (i : Nat) :
    i ∈ nullIndexes (getColD X c) ↔ cellAt X c i = some none := by
  rw [mem_nullIndexes]
  unfold cellAt getColD
  cases h : getCol? X c with
  | none => cases i <;> simp [List.get?]
  | some l => simp

/-! ### Lemmas about the transform loop -/

theorem transformStep_cell (impF : ImpOracle) (X0 : Frame) (s : TState)
    (e : String × FitStat) (c : String) (i : Nat) :
    cellAt (transformStep impF X0 s e).frame c i = cellAt s.frame c i ∨
    (cellAt s.frame c i = some none ∧
      ∃ v, cellAt (transformStep impF X0 s e).frame c i = some (some v)) := by
  by_cases h1 : nullIndexes (getColD s.frame e.1) = []
  · left; simp [transformStep, h1]
  · by_cases h2 : dispatchWrites e.2.strategy = true
    · have hframe : (transformStep impF X0 s e).frame =
          spliceCol s.frame e.1 (fun j => impF e.2.strategy e.1 X0 j)
            (nullIndexes (getColD s.frame e.1)) := by
        simp [transformStep, h1, h2]
      rw [hframe, cellAt_spliceCol]
      by_cases hc : c = e.1
      · rw [if_pos hc]
        cases hval : cellAt s.frame c i with
        | none => left; simp
        | some cell =>
          by_cases hmem : i ∈ nullIndexes (getColD s.frame e.1)
          · have hnull : cellAt s.frame e.1 i = some none :=
              (mem_nullIndexes_getColD s.frame e.1 i).mp hmem
            rw [hc] at hval
            have hcell : cell = none := by
              rw [hval] at hnull; exact Option.some.inj hnull
            right
            refine ⟨by rw [hcell], ?_⟩
            exact ⟨impF e.2.strategy e.1 X0 i, by simp [hcell, hmem]⟩
          · left; simp [hmem]
      · rw [if_neg hc]; left; rfl
    · left; simp [transformStep, h1, h2]

theorem foldl_transformStep_cell (impF : ImpOracle) (X0 : Frame) :
    ∀ (sts : List (String × FitStat)) (s : TState) (c : String) (i : Nat),
      cellAt (List.foldl (transformStep impF X0) s sts).frame c i
          = cellAt s.frame c i ∨
      (cellAt s.frame c i = some none ∧
        ∃ v, cellAt (List.foldl (transformStep impF X0) s sts).frame c i
          = some (some v))
| [], s, c, i => Or.inl rfl
| e :: rest, s, c, i => by
  have hstep := transformStep_cell impF X0 s e c i
  have ih := foldl_transformStep_cell impF X0 rest (transformStep impF X0 s e) c i
  rw [List.foldl_cons]
  rcases hstep with heq | ⟨hnull, v, hv⟩
  · rcases ih with h | ⟨h1, w, hw⟩
    · left; rw [h, heq]
    · rw [heq] at h1; exact Or.inr ⟨h1, w, hw⟩
  · rcases ih with h | ⟨h1, w, hw⟩
    · right; refine ⟨hnull, v, ?_⟩; rw [h]; exact hv
    · rw [hv] at h1; simp at h1

theorem transformStep_shape (impF : ImpOracle) (X0 : Frame) (s : TState)
    (e : String × FitStat) :
    frameShape (transformStep impF X0 s e).frame = frameShape s.frame := by
  by_cases h1 : nullIndexes (getColD s.frame e.1) = []
  · simp [transformStep, h1]
  · by_cases h2 : dispatchWrites e.2.strategy = true
    · simp [transformStep, h1, h2, spliceCol,
        frameShape_mapCol _ _ (fun l => length_fillFrom _ _ l 0)]
    · simp [transformStep, h1, h2]

theorem foldl_transformStep_shape (impF : ImpOracle) (X0 : Frame) :
    ∀ (sts : List (String × FitStat)) (s : TState),
      frameShape (List.foldl (transformStep impF X0) s sts).frame
        = frameShape s.frame
| [], _ => rfl
| e :: rest, s => by
  rw [List.foldl_cons, foldl_transformStep_shape impF X0 rest, transformStep_shape]

theorem transformStep_filled (impF : ImpOracle) (X0 : Frame) (s : TState)
    (e : String × FitStat) (i : Nat)
    (hd : dispatchWrites e.2.strategy = true)
    (hnull : cellAt s.frame e.1 i = some none) :
    ∃ v, cellAt (transformStep impF X0 s e).frame e.1 i = some (some v) := by
  have hmem : i ∈ nullIndexes (getColD s.frame e.1) :=
    (mem_nullIndexes_getColD s.frame e.1 i).mpr hnull
  have h1 : ¬ nullIndexes (getColD s.frame e.1) = [] := by
    intro h; rw [h] at hmem; exact List.not_mem_nil i hmem
  have hframe : (transformStep impF X0 s e).frame =
      spliceCol s.frame e.1 (fun j => impF e.2.strategy e.1 X0 j)
        (nullIndexes (getColD s.frame e.1)) := by
    simp [transformStep, h1, hd]
  rw [hframe, cellAt_spliceCol, if_pos rfl, hnull]
  exact ⟨impF e.2.strategy e.1 X0 i, by simp [hmem]⟩

theorem foldl_transformStep_filled (impF : ImpOracle) (X0 : Frame) :
    ∀ (sts : List (String × FitStat)) (s : TState) (c : String) (st : FitStat)
      (i : Nat), (c, st) ∈ sts → dispatchWrites st.strategy = true →
      cellAt s.frame c i = some none →
      ∃ v, cellAt (List.foldl (transformStep impF X0) s sts).frame c i
        = some (some v)
| [], _, _, _, _, hmem, _, _ => absurd hmem (List.not_mem_nil _)
| e :: rest, s, c, st, i, hmem, hd, hnull => by
  rw [List.foldl_cons]
  rcases List.mem_cons.mp hmem with heq | htail
  · subst heq
    obtain ⟨v, hv⟩ := transformStep_filled impF X0 s (c, st) i hd hnull
    rcases foldl_transformStep_cell impF X0 rest (transformStep impF X0 s (c, st))
        c i with h | ⟨h1, w, hw⟩
    · exact ⟨v, by rw [h]; exact hv⟩
    · exact ⟨w, hw⟩
  · rcases transformStep_cell impF X0 s e c i with heq2 | ⟨h1, w, hw⟩
    · exact foldl_transformStep_filled impF X0 rest (transformStep impF X0 s e)
        c st i htail hd (by rw [heq2]; exact hnull)
    · rcases foldl_transformStep_cell impF X0 rest (transformStep impF X0 s e)
          c i with h | ⟨h2, u, hu⟩
      · exact ⟨w, by rw [h]; exact hw⟩
      · exact ⟨u, hu⟩

theorem foldl_transformStep_nomiss (impF : ImpOracle) (X0 : Frame) :
    ∀ (sts : List (String × FitStat)) (s : TState),
      (∀ e ∈ sts, nullIndexes (getColD s.frame e.1) = []) →
      List.foldl (transformStep impF X0) s sts =
        { s with imputed := s.imputed ++ sts.map (fun e => (e.1, ([] : List Nat))) }
| [], s, _ => by simp
| e :: rest, s, h => by
  have he : nullIndexes (getColD s.frame e.1) = [] := h e (List.mem_cons_self e rest)
  have hstep : transformStep impF X0 s e =
      { s with imputed := s.imputed ++ [(e.1, ([] : List Nat))] } := by
    simp [transformStep, he]
  rw [List.foldl_cons, hstep]
  rw [foldl_transformStep_nomiss impF X0 rest
      { s with imputed := s.imputed ++ [(e.1, ([] : List Nat))] }
      (fun e2 h2 => h e2 (List.mem_cons_of_mem e h2))]
  simp

/-! ### Claim theorems -/

/-- Claim C1: for every fitted column, `transform` splices imputed values
into exactly the row positions that were null in that column at transform
time: when `transform` succeeds, the output frame has identical shape and
column order to the input, every non-null cell is unchanged, and every
originally-null cell of a fitted column whose resolved strategy is
dispatched by the impute if-chain is replaced by an imputed value. -/
theorem transform_splices_only_nulls
    (imp imp2 : PredictiveImputer) (impF : ImpOracle) (X Xout : Frame)
    (nd : Bool) (sts : List (String × FitStat)) (ev : List (String × String))
    (hfit : imp.statistics_ = some sts)
    (h : imp.transform impF X nd = (.ok Xout, imp2, ev)) :
    frameShape Xout = frameShape X ∧
    (∀ c i v, cellAt X c i = some (some v) → cellAt Xout c i = some (some v)) ∧
    (∀ c st, (c, st) ∈ sts → dispatchWrites st.strategy = true →
      ∀ i, cellAt X c i = some none → ∃ v, cellAt Xout c i = some (some v)) := by
  unfold PredictiveImputer.transform at h
  rw [hfit] at h
  simp only [] at h
  by_cases hnan : hasAllNullCol X = true
  · rw [if_pos hnan] at h
    simp at h
  · rw [if_neg hnan] at h
    by_cases hsch : ((imp.strats.getD []).map Prod.fst).any
        (fun c => decide (¬ c ∈ frameColumns X)) = true
    · rw [if_pos hsch] at h
      simp at h
    · rw [if_neg hsch] at h
      have hX : (List.foldl (transformStep impF X) ⟨X, [], [], []⟩ sts).frame
          = Xout := by
        have hfst := congrArg Prod.fst h
        simpa using hfst
      refine ⟨?_, ?_, ?_⟩
      · rw [← hX]
        exact foldl_transformStep_shape impF X sts ⟨X, [], [], []⟩
      · intro c i v hv
        rw [← hX]
        rcases foldl_transformStep_cell impF X sts ⟨X, [], [], []⟩ c i with
          he | ⟨h1, w, hw⟩
        · rw [he]; exact hv
        · rw [hv] at h1; simp at h1
      · intro c st hmem hd i hnullcell
        rw [← hX]
        exact foldl_transformStep_filled impF X sts ⟨X, [], [], []⟩ c st i
          hmem hd hnullcell

theorem transform_splices_only_nulls_witness :
    frameShape c1Xout = frameShape c1X ∧
    (∀ c i v, cellAt c1X c i = some (some v) → cellAt c1Xout c i = some (some v)) ∧
    (∀ c st, (c, st) ∈ [("A", (⟨[], methods.LS⟩ : FitStat))] →
      dispatchWrites st.strategy = true →
      ∀ i, cellAt c1X c i = some none → ∃ v, cellAt c1Xout c i = some (some v)) :=
  transform_splices_only_nulls c1Imp c1Imp2 c1ImpF c1X c1Xout false
    [("A", ⟨[], methods.LS⟩)] [("A", methods.LS)] rfl rfl

/-- Claim C2: for every strategy configuration and every frame accepted by
`fit`, `fit_transform` produces the same result as `fit` followed by
`transform` with `new_data = false` (so re-encoding is skipped). -/
theorem fitTransform_eq_fit_then_transform
    (imp m : PredictiveImputer) (fitF : FitOracle) (impF : ImpOracle) (X : Frame)
    (h : imp.fit fitF X = .ok m) :
    imp.fit_transform fitF impF X = m.transform impF X false := by
  unfold PredictiveImputer.fit_transform
  rw [h]

theorem fitTransform_eq_fit_then_transform_witness :
    c2Imp.fit c2FitF c2X = .ok c2M ∧
    c2Imp.fit_transform c2FitF c2ImpF c2X = c2M.transform c2ImpF c2X false :=
  ⟨rfl, fitTransform_eq_fit_then_transform c2Imp c2M c2FitF c2ImpF c2X rfl⟩

/-- Claim C3 counterexample: the `strategies` registry of `PredictiveImputer`
holds only eight identifiers (no `lrd`, no `none`), so constructing an
imputer with strategy `"lrd"` for a column, or `"none"`, raises
`UnknownStrategy` — the claim asserts both are accepted. -/
theorem strategy_lrd_none_rejected_cex :
    mkPredictiveImputer (.dict [("A", methods.LRD)]) "all" none true
        = .error .UnknownStrategy ∧
    mkPredictiveImputer (.str methods.NONE) "all" none true
        = .error .UnknownStrategy := ⟨rfl, rfl⟩

/-- Claim C3 amended: construction fails with `UnknownStrategy` iff some
assigned identifier lies outside the eight-key registry set {default, least
squares, binary logistic, multinomial logistic, stochastic, bayesian least
squares, bayesian binary logistic, pmm}; in particular `lrd` and `none` are
rejected for the `PredictiveImputer`. -/
theorem strategy_unknown_iff (st : StrategySpec) (p : String)
    (f : Option String) (c : Bool) :
    mkPredictiveImputer st p f c = .error .UnknownStrategy ↔
      stratValuesAllowed strategiesKeys st = false := by
  unfold mkPredictiveImputer check_strategy_allowed
  cases hb : stratValuesAllowed strategiesKeys st
  · simp [Except.map]
  · simp [Except.map]

theorem strategy_unknown_iff_witness :
    stratValuesAllowed strategiesKeys (.str methods.LRD) = false ∧
    mkPredictiveImputer (.str methods.LRD) "all" none true
      = .error .UnknownStrategy :=
  ⟨rfl, (strategy_unknown_iff (.str methods.LRD) "all" none true).mpr rfl⟩

/-- Claim C5 counterexample: fit on a frame with columns {A}; transform on a
frame with columns {A,B}: the transform columns differ from the fit columns,
yet no `SchemaMismatch` is raised — the validator only checks that fit-time
columns are present, so the claimed iff with "columns differ" fails. -/
theorem schema_extra_column_cex :
    c5Imp0.fit c5FitF c5X1 = .ok c5Fitted ∧
    frameColumns c5X2 ≠ frameColumns c5X1 ∧
    (c5Fitted.transform c5ImpF c5X2 true).1 = .ok c5X2 :=
  ⟨rfl, by decide, rfl⟩

/-- Claim C5 amended: for a fitted imputer and a frame with no all-null
column, `transform` raises `SchemaMismatch` iff some fit-time strategy
column is absent from the transform frame's columns (frames with extra
columns are accepted). -/
theorem schemaMismatch_iff_missing_fit_col
    (imp : PredictiveImputer) (impF : ImpOracle) (X : Frame) (nd : Bool)
    (sts : List (String × FitStat)) (strl : List (String × String))
    (hfit : imp.statistics_ = some sts) (hstr : imp.strats = some strl)
    (hnan : hasAllNullCol X = false) :
    (imp.transform impF X nd).1 = .error .SchemaMismatch ↔
      ∃ c ∈ strl.map Prod.fst, ¬ c ∈ frameColumns X := by
  unfold PredictiveImputer.transform
  rw [hfit, hstr, hnan]
  simp only [Option.getD_some]
  by_cases hc : ((strl.map Prod.fst).any (fun c => decide (¬ c ∈ frameColumns X)))
      = true
  · rw [if_neg (by simp), if_pos hc]
    simp only [List.any_eq_true, decide_eq_true_eq] at hc
    exact iff_of_true rfl hc
  · rw [if_neg (by simp), if_neg hc]
    simp only [List.any_eq_true, decide_eq_true_eq] at hc
    exact iff_of_false (by simp) hc

theorem schemaMismatch_iff_missing_fit_col_witness :
    (c5Fitted.transform c5ImpF c5wX true).1 = .error .SchemaMismatch := by
  have h := schemaMismatch_iff_missing_fit_col c5Fitted c5ImpF c5wX true
    [("A", ⟨[], methods.LS⟩)] [("A", methods.LS)] rfl rfl rfl
  exact h.mpr ⟨"A", by decide, by decide⟩

/-- Claim C6 counterexample: on a frame containing an all-null column, the
check_nan_columns decorator fires before the fitted-check, so an unfitted
imputer raises `AllColumnsNull`, not `NotFittedError`, falsifying "for every
DataFrame X". -/
theorem transform_unfit_allnull_cex :
    c6Imp.statistics_ = none ∧
    c6Imp.transform c6ImpF [("B", [none])] true
      = (.error .AllColumnsNull, c6Imp, []) ∧
    ImpError.AllColumnsNull ≠ ImpError.NotFittedError :=
  ⟨rfl, rfl, by decide⟩

/-- Claim C6 amended: for every frame with no all-null column, calling
`transform` on an imputer on which `fit` has not completed fails with
`NotFittedError`, and the instance state is returned unchanged (and the
frame untouched, since the error precedes the imputation loop). -/
theorem transform_before_fit_notFitted
    (imp : PredictiveImputer) (impF : ImpOracle) (X : Frame) (nd : Bool)
    (hunfit : imp.statistics_ = none) (hnan : hasAllNullCol X = false) :
    imp.transform impF X nd = (.error .NotFittedError, imp, []) := by
  unfold PredictiveImputer.transform
  rw [hunfit, hnan]
  simp

theorem transform_before_fit_notFitted_witness :
    c6Imp.transform c6ImpF [("A", [some (Val.num 1)])] true
      = (.error .NotFittedError, c6Imp, []) :=
  transform_before_fit_notFitted c6Imp c6ImpF [("A", [some (Val.num 1)])] true
    rfl rfl

/-- Claim C9 counterexample: a fitted imputer and a frame with zero missing
values in every fitted column, on which `transform` nevertheless does not
return the input: the unfitted column `B` has no observed values, so the
check_nan_columns decorator raises `AllColumnsNull`. -/
theorem transform_nomissing_allnull_cex :
    nullIndexes (getColD c9cX "A") = [] ∧
    c9Imp.transform c9ImpF c9cX true = (.error .AllColumnsNull, c9Imp, []) :=
  ⟨rfl, rfl⟩

/-- Claim C9 amended: for a fitted imputer and a frame that contains every
fit-time column, has no all-null column, and has zero missing values in all
fitted columns, `transform` returns the input frame unchanged, records empty
imputation index sets, and dispatches no impute routine. -/
theorem transform_no_missing_identity
    (imp : PredictiveImputer) (impF : ImpOracle) (X : Frame) (nd : Bool)
    (sts : List (String × FitStat)) (strl : List (String × String))
    (hfit : imp.statistics_ = some sts) (hstr : imp.strats = some strl)
    (hnan : hasAllNullCol X = false)
    (hcols : ((strl.map Prod.fst).any (fun c => decide (¬ c ∈ frameColumns X)))
      = false)
    (hnomiss : ∀ e ∈ sts, nullIndexes (getColD X e.1) = []) :
    imp.transform impF X nd =
      (.ok X,
       { imp with imputed_ := sts.map (fun e => (e.1, ([] : List Nat))),
                  traces_ := [] },
       []) := by
  have hF := foldl_transformStep_nomiss impF X sts ⟨X, [], [], []⟩ hnomiss
  unfold PredictiveImputer.transform
  rw [hfit, hstr, hnan]
  simp only [Option.getD_some]
  rw [if_neg (by simp), if_neg (by rw [hcols]; exact Bool.false_ne_true)]
  rw [hF]
  simp

theorem transform_no_missing_identity_witness :
    c9Imp.transform c9ImpF c9X true =
      (.ok c9X, { c9Imp with imputed_ := [("A", [])], traces_ := [] }, []) :=
  transform_no_missing_identity c9Imp c9ImpF c9X true
    [("A", ⟨[], methods.LS⟩)] [("A", methods.LS)] rfl rfl rfl rfl
    (by decide)

/-- Claim C4 counterexample: with an LRD `fill_value` that is neither "mean"
nor "random", `fit_impute` raises `InvalidFillValue` only after the
least-squares fit and the MCMC posterior sampling have both been performed
(the event list records the work that happened before the raise, in order) —
the claim asserts the error precedes any fitting or sampling work. -/
theorem lrd_invalid_fill_eager_cex :
    (c4Imp.fit_impute c4LS c4Sampler c4Choice [[1], [2]]
        [some (Val.num 1), none]).1 = .error .InvalidFillValue ∧
    (c4Imp.fit_impute c4LS c4Sampler c4Choice [[1], [2]]
        [some (Val.num 1), none]).2 = [.lsFit, .mcmcSample] :=
  ⟨rfl, rfl⟩

/-- Claim C4 amended: the LRD `fill_value` validation is not eager: it
happens inside `impute`, after the least-squares fit and the posterior
sampling.  For any fill_value other than "mean"/"random" and any numeric
response, `fit_impute` performs both units of expensive work and only then
raises `InvalidFillValue`. -/
theorem lrd_invalid_fill_after_work
    (imp : LRDImputer) (ls : LSOracle) (sampler : Sampler) (choice : Choice)
    (X : Mat) (y : List Cell)
    (hm : imp.fill_value ≠ "mean") (hr : imp.fill_value ≠ "random")
    (hnum : notNumSeries y = false) :
    imp.fit_impute ls sampler choice X y
      = (.error .InvalidFillValue, [.lsFit, .mcmcSample]) := by
  unfold LRDImputer.fit_impute LRDImputer.fit LRDImputer.impute
  simp [hnum, hm, hr]

theorem lrd_invalid_fill_after_work_witness :
    c4Imp.fit_impute c4LS c4Sampler c4Choice [[1]] [none]
      = (.error .InvalidFillValue, [.lsFit, .mcmcSample]) :=
  lrd_invalid_fill_after_work c4Imp c4LS c4Sampler c4Choice [[1]] [none]
    (by decide) (by decide) rfl

/-- Claim C7: for a fitted LRD imputer, `impute` fails with
`InvalidFillValue` iff `fill_value` is neither "mean" nor "random"; with
"mean" every bayesian prediction is imputed by the mean over the local
residuals of its nearest neighbors, with "random" by the random pick among
them, and no error occurs. -/
theorem lrd_fill_value_dispatch
    (imp : LRDImputer) (sampler : Sampler) (choice : Choice) (X : Mat)
    (st : LRDStats) (hfit : imp.statistics_ = some st) :
    ((imp.impute sampler choice X).1 = .error .InvalidFillValue ↔
      (imp.fill_value ≠ "mean" ∧ imp.fill_value ≠ "random")) ∧
    (imp.fill_value = "mean" →
      (imp.impute sampler choice X).1 =
        .ok ((lrdYPredBayes imp sampler st X).map
          (fun x => localResiduals meanQ x imp.neighbors (observedPairs st.yObs)))) ∧
    (imp.fill_value = "random" →
      (imp.impute sampler choice X).1 =
        .ok ((lrdYPredBayes imp sampler st X).map
          (fun x => localResiduals choice x imp.neighbors (observedPairs st.yObs)))) := by
  unfold LRDImputer.impute
  rw [hfit]
  by_cases hmean : imp.fill_value = "mean"
  · refine ⟨by simp [hmean], fun _ => by simp [hmean], fun hrand => ?_⟩
    rw [hmean] at hrand
    exact absurd hrand (by decide)
  · by_cases hrand : imp.fill_value = "random"
    · refine ⟨by simp [hmean, hrand], fun hmean2 => absurd hmean2 hmean,
        fun _ => by simp [hmean, hrand]⟩
    · exact ⟨by simp [hmean, hrand], fun hmean2 => absurd hmean2 hmean,
        fun hrand2 => absurd hrand2 hrand⟩

theorem lrd_fill_value_dispatch_witness :
    (c7Imp.impute c7Sampler c7Choice [[1]]).1 ≠ .error .InvalidFillValue := by
  have h := lrd_fill_value_dispatch c7Imp c7Sampler c7Choice [[1]]
    ⟨0, 10, [0], 10, 1, [(some (Val.num 1), 1), (some (Val.num 2), 2)]⟩ rfl
  intro hc
  exact (h.1.mp hc).1 rfl

/-- Claim C8: fitting the numeric-only LRD strategy on a response series
containing categorical data raises `StrategyMismatch` immediately: no
least-squares work happens (empty event list) and, since the call fails, no
fitted parameters are stored in `statistics_`. -/
theorem lrd_fit_categorical_mismatch
    (imp : LRDImputer) (ls : LSOracle) (X : Mat) (y : List Cell)
    (h : notNumSeries y = true) :
    imp.fit ls X y = (.error .StrategyMismatch, []) := by
  unfold LRDImputer.fit
  simp [h]

theorem lrd_fit_categorical_mismatch_witness :
    c8Imp.fit c8LS [[1]] [some (Val.cat "a")] = (.error .StrategyMismatch, []) :=
  lrd_fit_categorical_mismatch c8Imp c8LS [[1]] [some (Val.cat "a")] rfl

/-- Claim C10: when `am`/`bm` are left `None`, `fit` overwrites them with the
intercept and coefficient vector of the least-squares fit on that call's
data; afterwards they are no longer `None`, and any subsequent `fit` on
different data keeps the first fit's estimates as the prior means of the
bayesian model instead of re-deriving them. -/
theorem lrd_fit_seeds_prior_means
    (imp imp1 : LRDImputer) (ls : LSOracle) (X : Mat) (y : List Cell)
    (ham : imp.am = none) (hbm : imp.bm = none)
    (h : (imp.fit ls X y).1 = .ok imp1) :
    imp1.am = some (ls X y).1 ∧ imp1.bm = some (ls X y).2 ∧
    imp1.am ≠ none ∧ imp1.bm ≠ none ∧
    (∀ (ls2 : LSOracle) (X2 : Mat) (y2 : List Cell) (imp2 : LRDImputer),
      (imp1.fit ls2 X2 y2).1 = .ok imp2 →
      imp2.am = some (ls X y).1 ∧ imp2.bm = some (ls X y).2 ∧
      (∀ st2, imp2.statistics_ = some st2 →
        st2.modelAm = (ls X y).1 ∧ st2.modelBm = (ls X y).2)) := by
  have hcat : notNumSeries y = false := by
    by_contra hc
    rw [Bool.not_eq_false] at hc
    unfold LRDImputer.fit at h
    rw [if_pos hc] at h
    simp at h
  unfold LRDImputer.fit at h
  rw [hcat] at h
  rw [if_neg Bool.false_ne_true] at h
  simp only [] at h
  have hb := Except.ok.inj h
  subst hb
  refine ⟨by simp [ham], by simp [hbm], by simp, by simp, ?_⟩
  intro ls2 X2 y2 imp2 h2
  have hcat2 : notNumSeries y2 = false := by
    by_contra hc
    rw [Bool.not_eq_false] at hc
    unfold LRDImputer.fit at h2
    rw [if_pos hc] at h2
    simp at h2
  unfold LRDImputer.fit at h2
  rw [hcat2] at h2
  rw [if_neg Bool.false_ne_true] at h2
  simp only [] at h2
  have hb2 := Except.ok.inj h2
  subst hb2
  refine ⟨by simp [ham], by simp [hbm], ?_⟩
  intro st2 hst
  simp only [] at hst
  have hst2 := Option.some.inj hst
  subst hst2
  exact ⟨by simp [ham], by simp [hbm]⟩

theorem lrd_fit_seeds_prior_means_witness :
    c10Imp1.am = some (3 : ℚ) ∧ c10Imp1.bm = some [(4 : ℚ)] ∧
    c10Imp2.am = some (3 : ℚ) ∧ c10Imp2.bm = some [(4 : ℚ)] := by
  have h := lrd_fit_seeds_prior_means c10Imp c10Imp1 c10LS1 [[1]]
    [some (Val.num 2)] rfl rfl rfl
  refine ⟨h.1, h.2.1, ?_, ?_⟩
  · exact (h.2.2.2.2 c10LS2 [[5]] [some (Val.num 6)] c10Imp2 rfl).1
  · exact (h.2.2.2.2 c10LS2 [[5]] [some (Val.num 6)] c10Imp2 rfl).2.1

end Autoimpute
